import Mathlib

/-!
Shallow embedding of the Dialogflow ES webhook ordering backend
(repository Charanya6/Webhook, files `src/unnamed/part_000` and `src/server.js`).

The two source files are near-identical variants of the same webhook.  The
variant in `src/unnamed/part_000` (the one with the `getItemParam` /
`getQtyParam` normalizers) is embedded as the primary definitions; where
`src/server.js` differs (its `AddToCart` reads only `params.item` /
`params.qty` and has an explicit `qty >= 1` check), it is embedded separately
under `server`-prefixed names.

Numbers: JavaScript numbers are modelled as rationals (`ℚ`); `NaN` and the
infinities, which in the sources can only arise from `Number(...)` coercion of
unparseable strings, are modelled by `Option ℚ` at the coercion boundary
(`none` = not finite).  Parameter-bag values are modelled by `PVal`, covering
the JSON value shapes a Dialogflow `queryResult.parameters` bag can contain.
String-to-number coercion is modelled for plain signed decimal literals
(everything else coerces to `none`, i.e. NaN); exponent/hex forms and the
literal string "Infinity" accepted by JavaScript's `Number` are outside the
model (no claim exercises them).
-/

namespace Webhook

/-- A JSON-ish parameter value as found in `queryResult.parameters`.
`vNull` stands for both `null` and `undefined` (absent property reads),
which the sources treat identically via `??`.  `vObj` stands for any plain
object: its properties are never read by the sources, only its `toString`
("[object Object]") and `Number` coercion (NaN) are observable. -/
inductive PVal where
  | vNull : PVal
  | vStr : String → PVal
  | vNum : ℚ → PVal
  | vBool : Bool → PVal
  | vList : List PVal → PVal
  | vObj : PVal

/-- The JavaScript `a ?? b` nullish-coalescing step on an optionally-present
property: a present, non-null value wins, otherwise the default. -/
def firstPresent (v : Option PVal) (d : PVal) : PVal :=
  match v with
  | some PVal.vNull => d
  | some w => w
  | none => d

/-- JavaScript `s.toLowerCase()` (character-wise lowering; the sources only
ever compare the result against the ASCII menu keys). -/
def jsToLower (s : String) : String :=
  String.mk (s.data.map Char.toLower)

/-- JavaScript `s.trim()`: strip leading and trailing whitespace. -/
def jsTrim (s : String) : String :=
  String.mk (((s.data.dropWhile Char.isWhitespace).reverse.dropWhile
    Char.isWhitespace).reverse)

/-- Digits of a rational in `(0,1)` after the decimal point, to a fuel bound
of 20 places (JavaScript doubles always terminate well within this; the bound
only matters for rationals no JavaScript number denotes). -/
def fracDigits : Nat → ℚ → String
  | 0, _ => ""
  | n + 1, r =>
    let r10 := r * 10
    let d := (⌊r10⌋).toNat
    let rest := r10 - ⌊r10⌋
    if rest = 0 then toString d else toString d ++ fracDigits n rest

/-- JavaScript number-to-string conversion, restricted to plain decimal
rendering (no exponent forms). -/
def jsNumToString (q : ℚ) : String :=
  let sign := if q < 0 then "-" else ""
  let a := |q|
  let ip := (⌊a⌋).toNat
  let frac := a - ⌊a⌋
  if frac = 0 then sign ++ toString ip
  else sign ++ toString ip ++ "." ++ fracDigits 20 frac

mutual

/-- JavaScript `String(v)` / `v.toString()` on a parameter value. -/
def jsToString : PVal → String
  | PVal.vNull => "null"
  | PVal.vStr s => s
  | PVal.vNum q => jsNumToString q
  | PVal.vBool b => if b then "true" else "false"
  | PVal.vObj => "[object Object]"
  | PVal.vList ls => String.intercalate "," (jsListElems ls)

/-- Array `join(",")` element rendering: `null`/`undefined` elements render
as the empty string. -/
def jsListElems : List PVal → List String
  | [] => []
  | PVal.vNull :: rest => "" :: jsListElems rest
  | v :: rest => jsToString v :: jsListElems rest

end

/-- Read a run of decimal digits as a natural number. -/
def digitsToNat (cs : List Char) : Nat :=
  cs.foldl (fun n c => n * 10 + (c.toNat - '0'.toNat)) 0

/-- Parse an unsigned decimal literal (digits, optional point, digits);
`none` is NaN. -/
def parseNumChars (cs : List Char) : Option ℚ :=
  let sp := cs.span Char.isDigit
  match sp.2 with
  | [] => if sp.1 = [] then none else some (digitsToNat sp.1)
  | '.' :: fracRest =>
    let fp := fracRest.span Char.isDigit
    if fp.2 ≠ [] then none
    else if sp.1 = [] ∧ fp.1 = [] then none
    else some ((digitsToNat sp.1 : ℚ) + (digitsToNat fp.1 : ℚ) / (10 ^ fp.1.length))
  | _ => none

/-- JavaScript `Number(s)` on a string: trimmed empty string is `0`, a signed
decimal literal is its value, anything else is NaN (`none`). -/
def jsStringToNumber (s : String) : Option ℚ :=
  let t := jsTrim s
  if t = "" then some 0
  else
    match t.toList with
    | '-' :: cs => (parseNumChars cs).map (fun q => -q)
    | '+' :: cs => parseNumChars cs
    | cs => parseNumChars cs

/-- JavaScript `Number(v)` coercion of a parameter value; `none` is NaN. -/
def jsToNumber : PVal → Option ℚ
  | PVal.vNull => some 0
  | PVal.vStr s => jsStringToNumber s
  | PVal.vNum q => some q
  | PVal.vBool b => some (if b then 1 else 0)
  | PVal.vObj => none
  | PVal.vList ls => jsStringToNumber (jsToString (PVal.vList ls))

/-- The footprint of the `queryResult.parameters` bag: the only five fields
the sources ever probe.  `menuItemSp` models the field named "menu item"
(with a space); `none` means the property is absent. -/
structure Params where
  menu_items : Option PVal
  menuItemSp : Option PVal
  item : Option PVal
  number : Option PVal
  qty : Option PVal

/-- `getItemParam` from `src/unnamed/part_000`:
`(params.menu_items ?? params['menu_items'] ?? params['menu item'] ?? params.item ?? '').toString().toLowerCase().trim()`.
The source probes the `menu_items` property twice (dot and bracket notation
name the same field), reproduced here. -/
def getItemParam (p : Params) : String :=
  jsTrim (jsToLower (jsToString (firstPresent p.menu_items (firstPresent p.menu_items
    (firstPresent p.menuItemSp (firstPresent p.item (PVal.vStr "")))))))

/-- `getQtyParam` from `src/unnamed/part_000`:
`const raw = params.number ?? params['number'] ?? params.qty ?? fallback;
 const n = Number(raw); return Number.isFinite(n) && n > 0 ? n : fallback;`. -/
def getQtyParam (p : Params) (fallback : ℚ) : ℚ :=
  let raw := firstPresent p.number (firstPresent p.number
    (firstPresent p.qty (PVal.vNum fallback)))
  match jsToNumber raw with
  | some n => if 0 < n then n else fallback
  | none => fallback

/-- A catalog entry: display name and unit price. -/
structure MenuEntry where
  name : String
  price : ℚ
  deriving DecidableEq

/-- The static `menu` object of both sources. -/
def menu (key : String) : Option MenuEntry :=
  if key = "pizza" then some ⟨"Margherita Pizza", 1099 / 100⟩
  else if key = "ramen" then some ⟨"Spicy Ramen", 125 / 10⟩
  else if key = "veggie bowl" then some ⟨"Veggie Power Bowl", 975 / 100⟩
  else none

/-- One cart line `{item, qty, price}`. -/
structure CartLine where
  item : String
  qty : ℚ
  price : ℚ
  deriving DecidableEq

/-- A cart `{items, subtotal}`. -/
structure Cart where
  items : List CartLine
  subtotal : ℚ
  deriving DecidableEq

/-- `cart.items.reduce((sum, it) => sum + it.price * it.qty, 0)`. -/
def sumLines (ls : List CartLine) : ℚ :=
  ls.foldl (fun sum it => sum + it.price * it.qty) 0

/-- `recalc(cart)`: store the recomputed subtotal on the cart. -/
def recalc (c : Cart) : Cart :=
  ⟨c.items, sumLines c.items⟩

/-- The observable content of each handler's `dfText` reply: which message is
produced and the raw values interpolated into it (currency formatting by
`formatINR` is a display concern carried here as the raw rational).  The
`showCart` payload carries, per line, the looked-up display name
(`menu[i.item]` is `undefined` for a non-menu key, in which case the source
would throw on `.name`; such carts are unreachable), the quantity, and the
line total `i.qty * i.price`. -/
inductive Reply where
  | missingItemAdd : Reply
  | unknownItem : String → Reply
  | invalidQuantity : Reply
  | added : String → ℚ → ℚ → Reply
  | emptyCartShow : Reply
  | showCart : List (Option String × ℚ × ℚ) → ℚ → Reply
  | missingItemRemove : Reply
  | notInCart : String → Reply
  | removed : ℚ → Reply
  | cleared : Reply
  | emptyCartCheckout : Reply
  | orderPlaced : ℚ → ℚ → ℚ → Reply
  deriving DecidableEq

/-- `existing.qty += qty` on the first line matching `key` (JavaScript `find`
returns the first match). -/
def bumpFirst (ls : List CartLine) (key : String) (q : ℚ) : List CartLine :=
  match ls with
  | [] => []
  | l :: rest =>
    if l.item = key then ⟨l.item, l.qty + q, l.price⟩ :: rest
    else l :: bumpFirst rest key q

/-- The add-mutation of `AddToCart`: bump the existing line, else push a new
line with the catalog price as the snapshot. -/
def addLine (ls : List CartLine) (key : String) (q price : ℚ) : List CartLine :=
  if ls.any (fun l => l.item = key) then bumpFirst ls key q
  else ls ++ [⟨key, q, price⟩]

/-- `AddToCart` from `src/unnamed/part_000`, as its effect on one cart: check
the normalized item key, look it up in the menu, merge-or-append with
`getQtyParam(params, 1)`, recalc, and reply with the item's display name, the
quantity just added, and the new subtotal.  This variant has no quantity
validation beyond `getQtyParam`'s clamping. -/
def AddToCart (p : Params) (c : Cart) : Cart × Reply :=
  if getItemParam p = "" then (c, Reply.missingItemAdd)
  else
    match menu (getItemParam p) with
    | none => (c, Reply.unknownItem (getItemParam p))
    | some e =>
      let c₂ := recalc ⟨addLine c.items (getItemParam p) (getQtyParam p 1) e.price, c.subtotal⟩
      (c₂, Reply.added e.name (getQtyParam p 1) c₂.subtotal)

/-- `ShowCart` as its effect on one cart: empty carts reply with the
empty-cart message before `recalc` runs; otherwise the lines are rendered and
the subtotal recomputed (the source calls `recalc`, mutating the stored
subtotal even on this read). -/
def ShowCart (c : Cart) : Cart × Reply :=
  if c.items = [] then (c, Reply.emptyCartShow)
  else
    let c₂ := recalc c
    (c₂, Reply.showCart
      (c.items.map (fun l => ((menu l.item).map (fun e => e.name), l.qty, l.qty * l.price)))
      c₂.subtotal)

/-- `cart.items.splice(idx, 1)` at the first line matching `key`. -/
def removeFirst (ls : List CartLine) (key : String) : List CartLine :=
  match ls with
  | [] => []
  | l :: rest => if l.item = key then rest else l :: removeFirst rest key

/-- Decrement the first line matching `key` by `q`, splicing it out when the
result is `≤ 0`. -/
def decFirst (ls : List CartLine) (key : String) (q : ℚ) : List CartLine :=
  match ls with
  | [] => []
  | l :: rest =>
    if l.item = key then
      if l.qty - q ≤ 0 then rest else ⟨l.item, l.qty - q, l.price⟩ :: rest
    else l :: decFirst rest key q

/-- `const qty = Number(params.number ?? params.qty ?? 0)` in
`RemoveFromCart` of `src/unnamed/part_000`; `none` is NaN. -/
def removeQty (p : Params) : Option ℚ :=
  jsToNumber (firstPresent p.number (firstPresent p.qty (PVal.vNum 0)))

/-- The JavaScript test `qty > 0`, false for NaN. -/
def qtyPos (q : Option ℚ) : Bool :=
  match q with
  | some n => decide (0 < n)
  | none => false

/-- `RemoveFromCart` from `src/unnamed/part_000`, as its effect on one cart:
missing key replies first; an absent line replies `notInCart`; `qty > 0`
decrements the first matching line (removing it when the result is `≤ 0`),
any other coerced quantity (`≤ 0` or NaN, including the absent-parameter
default `0`) removes the line outright; then recalc. -/
def RemoveFromCart (p : Params) (c : Cart) : Cart × Reply :=
  if getItemParam p = "" then (c, Reply.missingItemRemove)
  else if c.items.any (fun l => l.item = getItemParam p) then
    let ls :=
      if qtyPos (removeQty p) then
        decFirst c.items (getItemParam p) ((removeQty p).getD 0)
      else removeFirst c.items (getItemParam p)
    let c₂ := recalc ⟨ls, c.subtotal⟩
    (c₂, Reply.removed c₂.subtotal)
  else (c, Reply.notInCart (getItemParam p))

/-- `ClearCart`: unconditionally `carts.set(sessionId, {items: [], subtotal: 0})`. -/
def ClearCart (_c : Cart) : Cart × Reply :=
  (⟨[], 0⟩, Reply.cleared)

/-- JavaScript `+(x).toFixed(2)` on a number: round to two decimals, ties to
the larger candidate (toward +∞ per the ECMAScript `toFixed` rule). -/
def toFixed2 (q : ℚ) : ℚ :=
  ((⌊q * 100 + 1 / 2⌋ : ℤ) : ℚ) / 100

/-- The fixed `taxRate = 0.05` of `Checkout`. -/
def taxRate : ℚ := 5 / 100

/-- `Checkout`, as its effect on one cart: empty carts reply and are left
unchanged; otherwise the subtotal is recomputed (`recalc(cart)`), tax and
grand total are rounded with `toFixed(2)`, and the cart is reset to empty. -/
def Checkout (c : Cart) : Cart × Reply :=
  if c.items = [] then (c, Reply.emptyCartCheckout)
  else
    let subtotal := sumLines c.items
    let tax := toFixed2 (subtotal * taxRate)
    let grand := toFixed2 (subtotal + tax)
    (⟨[], 0⟩, Reply.orderPlaced subtotal tax grand)

/-- The five cart operations a webhook call can perform on a session's cart. -/
inductive Op where
  | add : Params → Op
  | showOp : Op
  | remove : Params → Op
  | clear : Op
  | checkout : Op

/-- One operation's effect on a single cart. -/
def applyOp : Op → Cart → Cart × Reply
  | Op.add p, c => AddToCart p c
  | Op.showOp, c => ShowCart c
  | Op.remove p, c => RemoveFromCart p c
  | Op.clear, c => ClearCart c
  | Op.checkout, c => Checkout c

/-- The sequence of cart states after each operation of a run. -/
def runTrace : List Op → Cart → List Cart
  | [], _ => []
  | o :: os, c =>
    let c₂ := (applyOp o c).1
    c₂ :: runTrace os c₂

/-- The `carts` map, `sessionId -> cart`, as an association list. -/
def Store := List (String × Cart)

/-- `carts.get(sessionId)` (`carts.has` check included). -/
def storeLookup : Store → String → Option Cart
  | [], _ => none
  | (k, c) :: rest, sid => if k = sid then some c else storeLookup rest sid

/-- `carts.set(sessionId, c)`. -/
def storeSet : Store → String → Cart → Store
  | [], sid, c => [(sid, c)]
  | (k, c₀) :: rest, sid, c =>
    if k = sid then (sid, c) :: rest else (k, c₀) :: storeSet rest sid c

/-- `getCart(sessionId)`: create-on-first-access, returning the cart and the
(possibly extended) store. -/
def getCart (s : Store) (sid : String) : Cart × Store :=
  match storeLookup s sid with
  | some c => (c, s)
  | none => (⟨[], 0⟩, storeSet s sid ⟨[], 0⟩)

/-- One webhook call handled for session `sid` against the store.  The
item-key and menu checks of `AddToCart` and the item-key check of
`RemoveFromCart` run before `getCart` in the sources, so those error paths
leave the store untouched (no cart entry is created); every other path reads
the session's cart, applies the single-cart operation, and writes the result
back under the same session id (`ClearCart` and `Checkout` write via
`carts.set` directly). -/
def handleOp (o : Op) (sid : String) (s : Store) : Store × Reply :=
  match o with
  | Op.add p =>
    if getItemParam p = "" then (s, Reply.missingItemAdd)
    else
      match menu (getItemParam p) with
      | none => (s, Reply.unknownItem (getItemParam p))
      | some _ =>
        let cs := getCart s sid
        let r := AddToCart p cs.1
        (storeSet cs.2 sid r.1, r.2)
  | Op.showOp =>
    let cs := getCart s sid
    let r := ShowCart cs.1
    (storeSet cs.2 sid r.1, r.2)
  | Op.remove p =>
    if getItemParam p = "" then (s, Reply.missingItemRemove)
    else
      let cs := getCart s sid
      let r := RemoveFromCart p cs.1
      (storeSet cs.2 sid r.1, r.2)
  | Op.clear => (storeSet s sid ⟨[], 0⟩, Reply.cleared)
  | Op.checkout =>
    let cs := getCart s sid
    let r := Checkout cs.1
    (storeSet cs.2 sid r.1, r.2)

/-- `src/server.js` `AddToCart`'s item key:
`(params.item ?? '').toString().toLowerCase().trim()`. -/
def serverItemParam (p : Params) : String :=
  jsTrim (jsToLower (jsToString (firstPresent p.item (PVal.vStr ""))))

/-- `src/server.js` `AddToCart`'s quantity: `Number(params.qty ?? 1)`;
`none` is NaN. -/
def serverQty (p : Params) : Option ℚ :=
  jsToNumber (firstPresent p.qty (PVal.vNum 1))

/-- `AddToCart` from `src/server.js`: like the `part_000` variant but reading
only `params.item` / `params.qty`, and with the explicit guard
`if (!(qty >= 1)) return dfText("Quantity must be at least 1.")` run after
the item checks (NaN also fails the guard). -/
def serverAddToCart (p : Params) (c : Cart) : Cart × Reply :=
  if serverItemParam p = "" then (c, Reply.missingItemAdd)
  else
    match menu (serverItemParam p) with
    | none => (c, Reply.unknownItem (serverItemParam p))
    | some e =>
      match serverQty p with
      | none => (c, Reply.invalidQuantity)
      | some q =>
        if q < 1 then (c, Reply.invalidQuantity)
        else
          let c₂ := recalc ⟨addLine c.items (serverItemParam p) q e.price, c.subtotal⟩
          (c₂, Reply.added e.name q c₂.subtotal)

/-- `round2` as the specification words it: two-decimal rounding with halves
rounded away from zero.  Stated from the spec for comparison against the
source's `toFixed2`; the two agree on the nonnegative values `Checkout`
feeds them. -/
def round2away (q : ℚ) : ℚ :=
  if 0 ≤ q then ((⌊q * 100 + 1 / 2⌋ : ℤ) : ℚ) / 100
  else -(((⌊-q * 100 + 1 / 2⌋ : ℤ) : ℚ) / 100)

/-- Concrete "add pizza with quantity q" parameter bag, filling the fields
both variants read (`menu_items`/`number` for `part_000`, `item`/`qty` for
`server.js`) with the same values. -/
def pzP (q : ℚ) : Params :=
  ⟨some (PVal.vStr "pizza"), none, some (PVal.vStr "pizza"),
    some (PVal.vNum q), some (PVal.vNum q)⟩

/-! ### Evaluation and structural lemmas -/

theorem pzP_item (q : ℚ) : getItemParam (pzP q) = "pizza" := rfl

theorem pzP_server_item (q : ℚ) : serverItemParam (pzP q) = "pizza" := rfl

theorem menu_pizza : menu "pizza" = some ⟨"Margherita Pizza", 1099 / 100⟩ := rfl

theorem pzP_qty (q : ℚ) (h : 0 < q) : getQtyParam (pzP q) 1 = q := by
  simp [getQtyParam, pzP, firstPresent, jsToNumber, h]

theorem pzP_server_qty (q : ℚ) : serverQty (pzP q) = some q := rfl

theorem sumLines_eq (ls : List CartLine) :
    sumLines ls = (ls.map (fun l => l.price * l.qty)).sum := by
  have h : ∀ a : ℚ,
      ls.foldl (fun sum it => sum + it.price * it.qty) a
        = a + (ls.map (fun l => l.price * l.qty)).sum := by
    induction ls with
    | nil => intro a; simp
    | cons l rest ih => intro a; simp [List.foldl_cons, ih, add_assoc]
  simpa [sumLines] using h 0

/-- The per-cart subtotal invariant. -/
def cartInv (c : Cart) : Prop :=
  c.subtotal = sumLines c.items

theorem cartInv_empty : cartInv ⟨[], 0⟩ := by
  simp [cartInv, sumLines]

theorem cartInv_recalc (c : Cart) : cartInv (recalc c) := by
  simp [cartInv, recalc]

theorem applyOp_inv (o : Op) (c : Cart) (h : cartInv c) : cartInv (applyOp o c).1 := by
  cases o with
  | add p =>
    simp only [applyOp, AddToCart]
    split
    · exact h
    · split
      · exact h
      · exact cartInv_recalc _
  | showOp =>
    simp only [applyOp, ShowCart]
    split
    · exact h
    · exact cartInv_recalc _
  | remove p =>
    simp only [applyOp, RemoveFromCart]
    split
    · exact h
    · split
      · exact cartInv_recalc _
      · exact h
  | clear => exact cartInv_empty
  | checkout =>
    simp only [applyOp, Checkout]
    split
    · exact h
    · exact cartInv_empty

theorem runTrace_inv (ops : List Op) (c : Cart) (h : cartInv c) :
    ∀ c₂ ∈ runTrace ops c, cartInv c₂ := by
  induction ops generalizing c with
  | nil => intro c₂ hc; simp [runTrace] at hc
  | cons o os ih =>
    intro c₂ hc
    simp only [runTrace, List.mem_cons] at hc
    rcases hc with hc | hc
    · subst hc; exact applyOp_inv o c h
    · exact ih (applyOp o c).1 (applyOp_inv o c h) c₂ hc

/-- Step-preserved properties hold along every trace. -/
theorem runTrace_pres (P : Cart → Prop) (hstep : ∀ o c, P c → P (applyOp o c).1)
    (ops : List Op) (c : Cart) (h : P c) : ∀ c₂ ∈ runTrace ops c, P c₂ := by
  induction ops generalizing c with
  | nil => intro c₂ hc; simp [runTrace] at hc
  | cons o os ih =>
    intro c₂ hc
    simp only [runTrace, List.mem_cons] at hc
    rcases hc with hc | hc
    · subst hc; exact hstep o c h
    · exact ih (applyOp o c).1 (hstep o c h) c₂ hc

theorem getQtyParam_pos (p : Params) (fb : ℚ) (h : 0 < fb) :
    0 < getQtyParam p fb := by
  simp only [getQtyParam]
  split
  · split
    · assumption
    · exact h
  · exact h

theorem bumpFirst_pos (ls : List CartLine) (key : String) (q : ℚ) (hq : 0 < q)
    (h : ∀ l ∈ ls, 0 < l.qty) : ∀ l ∈ bumpFirst ls key q, 0 < l.qty := by
  induction ls with
  | nil => intro l hl; simp [bumpFirst] at hl
  | cons x xs ih =>
    intro l hl
    rw [bumpFirst] at hl
    by_cases hx : x.item = key
    · rw [if_pos hx] at hl
      rcases List.mem_cons.mp hl with h1 | h1
      · subst h1
        exact add_pos (h x (List.mem_cons_self x xs)) hq
      · exact h l (List.mem_cons_of_mem x h1)
    · rw [if_neg hx] at hl
      rcases List.mem_cons.mp hl with h1 | h1
      · subst h1; exact h l (List.mem_cons_self l xs)
      · exact ih (fun y hy => h y (List.mem_cons_of_mem x hy)) l h1

theorem decFirst_pos (ls : List CartLine) (key : String) (q : ℚ)
    (h : ∀ l ∈ ls, 0 < l.qty) : ∀ l ∈ decFirst ls key q, 0 < l.qty := by
  induction ls with
  | nil => intro l hl; simp [decFirst] at hl
  | cons x xs ih =>
    intro l hl
    rw [decFirst] at hl
    by_cases hx : x.item = key
    · rw [if_pos hx] at hl
      by_cases hd : x.qty - q ≤ 0
      · rw [if_pos hd] at hl
        exact h l (List.mem_cons_of_mem x hl)
      · rw [if_neg hd] at hl
        rcases List.mem_cons.mp hl with h1 | h1
        · subst h1; simpa using lt_of_not_le hd
        · exact h l (List.mem_cons_of_mem x h1)
    · rw [if_neg hx] at hl
      rcases List.mem_cons.mp hl with h1 | h1
      · subst h1; exact h l (List.mem_cons_self l xs)
      · exact ih (fun y hy => h y (List.mem_cons_of_mem x hy)) l h1

theorem removeFirst_subset (ls : List CartLine) (key : String) :
    ∀ l ∈ removeFirst ls key, l ∈ ls := by
  induction ls with
  | nil => intro l hl; simp [removeFirst] at hl
  | cons x xs ih =>
    intro l hl
    rw [removeFirst] at hl
    by_cases hx : x.item = key
    · rw [if_pos hx] at hl; exact List.mem_cons_of_mem x hl
    · rw [if_neg hx] at hl
      rcases List.mem_cons.mp hl with h1 | h1
      · subst h1; exact List.mem_cons_self l xs
      · exact List.mem_cons_of_mem x (ih l h1)

theorem addLine_pos (ls : List CartLine) (key : String) (q price : ℚ) (hq : 0 < q)
    (h : ∀ l ∈ ls, 0 < l.qty) : ∀ l ∈ addLine ls key q price, 0 < l.qty := by
  unfold addLine
  split
  · exact bumpFirst_pos ls key q hq h
  · intro l hl
    rcases List.mem_append.mp hl with h1 | h1
    · exact h l h1
    · rcases List.mem_singleton.mp h1 with rfl
      exact hq

/-- All lines strictly positive. -/
def qtyInv (c : Cart) : Prop :=
  ∀ l ∈ c.items, 0 < l.qty

theorem applyOp_qtyInv (o : Op) (c : Cart) (h : qtyInv c) : qtyInv (applyOp o c).1 := by
  cases o with
  | add p =>
    simp only [applyOp, AddToCart]
    split
    · exact h
    · split
      · exact h
      · exact addLine_pos c.items (getItemParam p) (getQtyParam p 1) _
          (getQtyParam_pos p 1 one_pos) h
  | showOp =>
    simp only [applyOp, ShowCart]
    split
    · exact h
    · exact h
  | remove p =>
    simp only [applyOp, RemoveFromCart]
    split
    · exact h
    · split
      · split
        · exact decFirst_pos c.items (getItemParam p) _ h
        · exact fun l hl => h l (removeFirst_subset c.items (getItemParam p) l hl)
      · exact h
  | clear => intro l hl; simp [applyOp, ClearCart] at hl
  | checkout =>
    simp only [applyOp, Checkout]
    split
    · exact h
    · intro l hl; simp at hl

/-- C9 counterexample: adding pizza with the parameter value 2.5 stores the
fractional quantity 5/2 in the cart line, in both source variants; 5/2 is not
an integer (its reduced denominator is 2). -/
theorem fractional_qty_cex :
    ((AddToCart (pzP (5 / 2)) ⟨[], 0⟩).1.items.map (fun l => l.qty) = [5 / 2]
      ∧ (serverAddToCart (pzP (5 / 2)) ⟨[], 0⟩).1.items.map (fun l => l.qty) = [5 / 2])
      ∧ ((5 : ℚ) / 2).den ≠ 1 := by
  refine ⟨⟨?_, ?_⟩, by norm_num⟩
  · rw [AddToCart]
    norm_num +decide [pzP_item, menu_pizza, pzP_qty, addLine, bumpFirst, recalc, sumLines]
  · rw [serverAddToCart]
    norm_num +decide [pzP_server_item, menu_pizza, pzP_server_qty, addLine, bumpFirst,
      recalc, sumLines]

/-- C9 (amended): every line of every reachable cart has a strictly positive
quantity; integrality does not hold, since AddToCart accepts any finite
positive quantity, fractional ones included. -/
theorem qty_positive_invariant (ops : List Op) (c : Cart)
    (hc : c ∈ runTrace ops ⟨[], 0⟩) :
    ∀ l ∈ c.items, 0 < l.qty := by
  exact runTrace_pres qtyInv applyOp_qtyInv ops ⟨[], 0⟩ (fun l hl => by simp at hl) c hc

theorem qty_positive_invariant_witness :
    ((⟨[], 0⟩ : Cart) ∈ runTrace [Op.clear] ⟨[], 0⟩)
      ∧ (∀ l ∈ (⟨[], 0⟩ : Cart).items, 0 < l.qty) := by
  have hm : (⟨[], 0⟩ : Cart) ∈ runTrace [Op.clear] ⟨[], 0⟩ := by
    simp [runTrace, applyOp, ClearCart]
  exact ⟨hm, qty_positive_invariant [Op.clear] ⟨[], 0⟩ hm⟩

theorem menu_empty_key : menu "" = none := rfl

theorem bumpFirst_item_price (ls : List CartLine) (key : String) (q : ℚ) :
    (bumpFirst ls key q).map (fun l => (l.item, l.price))
      = ls.map (fun l => (l.item, l.price)) := by
  induction ls with
  | nil => simp [bumpFirst]
  | cons x xs ih =>
    rw [bumpFirst]
    by_cases hx : x.item = key
    · simp [if_pos hx]
    · simp [if_neg hx, ih]

theorem bumpFirst_keys (ls : List CartLine) (key : String) (q : ℚ) :
    (bumpFirst ls key q).map (fun l => l.item) = ls.map (fun l => l.item) := by
  induction ls with
  | nil => simp [bumpFirst]
  | cons x xs ih =>
    rw [bumpFirst]
    by_cases hx : x.item = key
    · simp [if_pos hx]
    · simp [if_neg hx, ih]

theorem addLine_nodup (ls : List CartLine) (key : String) (q price : ℚ)
    (h : (ls.map (fun l => l.item)).Nodup) :
    ((addLine ls key q price).map (fun l => l.item)).Nodup := by
  unfold addLine
  split
  · rwa [bumpFirst_keys]
  · rename_i hany
    have hk : key ∉ ls.map (fun l => l.item) := by
      intro hmem
      rcases List.mem_map.mp hmem with ⟨l, hl, he⟩
      exact hany (List.any_eq_true.mpr ⟨l, hl, by simp [he]⟩)
    rw [List.map_append]
    refine List.Nodup.append h (List.nodup_singleton key) ?_
    intro a ha hb
    rcases List.mem_singleton.mp hb with rfl
    exact hk ha

theorem addToCart_nodup (p : Params) (c : Cart)
    (h : (c.items.map (fun l => l.item)).Nodup) :
    ((AddToCart p c).1.items.map (fun l => l.item)).Nodup := by
  simp only [AddToCart]
  split
  · exact h
  · split
    · exact h
    · exact addLine_nodup _ _ _ _ h

theorem bumpFirst_decomp (pre post : List CartLine) (l : CartLine) (key : String)
    (q : ℚ) (hpre : ∀ x ∈ pre, x.item ≠ key) (hl : l.item = key) :
    bumpFirst (pre ++ l :: post) key q = pre ++ ⟨l.item, l.qty + q, l.price⟩ :: post := by
  induction pre with
  | nil => simp [bumpFirst, hl]
  | cons x xs ih =>
    have hx : x.item ≠ key := hpre x (List.mem_cons_self x xs)
    simp only [List.cons_append, bumpFirst, if_neg hx, List.cons.injEq, true_and]
    exact ih (fun y hy => hpre y (List.mem_cons_of_mem x hy))

theorem any_key_of_decomp (pre post : List CartLine) (l : CartLine) (key : String)
    (hl : l.item = key) :
    ((pre ++ l :: post).any (fun x => x.item = key)) = true :=
  List.any_eq_true.mpr ⟨l, by simp, by simp [hl]⟩

/-- C2: after any sequence of AddToCart operations a cart's item keys are
pairwise distinct (at most one line per key); adding an item that already has
a line rewrites that first matching line to carry the incremented quantity,
with the same key and the same price snapshot, and no line is appended; and
adding pizza with quantity 1 and then quantity 2 yields exactly one pizza
line with quantity 3. -/
theorem add_merge_unique :
    (∀ ps : List Params,
      (((ps.foldl (fun c p => (AddToCart p c).1) (⟨[], 0⟩ : Cart)).items.map
        (fun l => l.item)).Nodup))
    ∧ (∀ (p : Params) (pre post : List CartLine) (l : CartLine) (c : Cart) (e : MenuEntry),
        menu (getItemParam p) = some e →
        c.items = pre ++ l :: post →
        l.item = getItemParam p →
        (∀ x ∈ pre, x.item ≠ getItemParam p) →
        (AddToCart p c).1.items
          = pre ++ ⟨l.item, l.qty + getQtyParam p 1, l.price⟩ :: post)
    ∧ (AddToCart (pzP 2) (AddToCart (pzP 1) ⟨[], 0⟩).1).1
        = ⟨[⟨"pizza", 3, 1099 / 100⟩], 3297 / 100⟩ := by
  refine ⟨?_, ?_, ?_⟩
  · have hfold : ∀ (ps : List Params) (c : Cart),
        (c.items.map (fun l => l.item)).Nodup →
        (((ps.foldl (fun c p => (AddToCart p c).1) c).items.map (fun l => l.item)).Nodup) := by
      intro ps
      induction ps with
      | nil => intro c h; simpa
      | cons p rest ih => intro c h; exact ih _ (addToCart_nodup p c h)
    intro ps
    exact hfold ps ⟨[], 0⟩ (by simp)
  · intro p pre post l c e hm hc hl hpre
    have hne : getItemParam p ≠ "" := by
      intro h0
      rw [h0, menu_empty_key] at hm
      exact Option.noConfusion hm
    simp only [AddToCart, if_neg hne, hm, recalc]
    rw [hc]
    unfold addLine
    rw [if_pos (any_key_of_decomp pre post l (getItemParam p) hl)]
    exact bumpFirst_decomp pre post l (getItemParam p) (getQtyParam p 1) hpre hl
  · rw [AddToCart, AddToCart]
    norm_num +decide [pzP_item, menu_pizza, pzP_qty, addLine, bumpFirst, recalc, sumLines]

theorem add_merge_unique_witness :
    (AddToCart (pzP 2) ⟨[⟨"pizza", 1, 1099 / 100⟩], 1099 / 100⟩).1.items
      = [] ++ (⟨"pizza", 1 + getQtyParam (pzP 2) 1, 1099 / 100⟩ : CartLine) :: [] :=
  add_merge_unique.2.1 (pzP 2) [] [] ⟨"pizza", 1, 1099 / 100⟩
    ⟨[⟨"pizza", 1, 1099 / 100⟩], 1099 / 100⟩ ⟨"Margherita Pizza", 1099 / 100⟩
    (by rw [pzP_item]; exact menu_pizza) rfl (by rw [pzP_item]) (by simp)

theorem storeLookup_set_self (s : Store) (k : String) (c : Cart) :
    storeLookup (storeSet s k c) k = some c := by
  induction s with
  | nil => simp [storeSet, storeLookup]
  | cons kv rest ih =>
    obtain ⟨k₀, c₀⟩ := kv
    rw [storeSet]
    by_cases hk : k₀ = k
    · rw [if_pos hk]; simp [storeLookup]
    · rw [if_neg hk]; simp [storeLookup, hk, ih]

theorem storeLookup_set_other (s : Store) (k other : String) (c : Cart)
    (h : k ≠ other) :
    storeLookup (storeSet s k c) other = storeLookup s other := by
  induction s with
  | nil => simp [storeSet, storeLookup, h]
  | cons kv rest ih =>
    obtain ⟨k₀, c₀⟩ := kv
    rw [storeSet]
    by_cases hk : k₀ = k
    · subst hk
      rw [if_pos rfl]
      simp [storeLookup, h]
    · rw [if_neg hk]
      simp [storeLookup, ih]

/-- C3: checkout of a nonempty cart resets it to the empty cart (the same
reset as ClearCart), a ShowCart on the result reports the empty cart, the
result cannot be checked out again, and — at the store level — after a
checkout under a session id holding a nonempty cart, a ShowCart under the
same session id reports the empty cart; checkout of an empty cart replies
EmptyCart and leaves the cart unchanged. -/
theorem checkout_consuming :
    (∀ c : Cart, c.items ≠ [] →
      (Checkout c).1 = (⟨[], 0⟩ : Cart)
        ∧ (Checkout c).1 = (ClearCart c).1
        ∧ (ShowCart (Checkout c).1).2 = Reply.emptyCartShow
        ∧ Checkout (Checkout c).1 = ((Checkout c).1, Reply.emptyCartCheckout))
    ∧ (∀ c : Cart, c.items = [] → Checkout c = (c, Reply.emptyCartCheckout))
    ∧ (∀ (s : Store) (sid : String) (c : Cart),
        storeLookup s sid = some c → c.items ≠ [] →
        (handleOp Op.showOp sid (handleOp Op.checkout sid s).1).2
          = Reply.emptyCartShow) := by
  refine ⟨?_, ?_, ?_⟩
  · intro c h
    have hc : (Checkout c).1 = (⟨[], 0⟩ : Cart) := by
      rw [Checkout, if_neg h]
    refine ⟨hc, ?_, ?_, ?_⟩
    · rw [hc, ClearCart]
    · rw [hc]; decide
    · rw [hc]; decide
  · intro c h
    rw [Checkout, if_pos h]
  · intro s sid c hlook h
    have hck : (handleOp Op.checkout sid s).1 = storeSet s sid ⟨[], 0⟩ := by
      simp only [handleOp, getCart, hlook, Checkout, if_neg h]
    rw [hck]
    simp only [handleOp, getCart, storeLookup_set_self]
    decide

theorem checkout_consuming_witness :
    (Checkout (⟨[⟨"pizza", 2, 1099 / 100⟩], 2198 / 100⟩ : Cart)).1 = (⟨[], 0⟩ : Cart)
      ∧ (ShowCart (Checkout (⟨[⟨"pizza", 2, 1099 / 100⟩], 2198 / 100⟩ : Cart)).1).2
          = Reply.emptyCartShow :=
  ⟨(checkout_consuming.1 ⟨[⟨"pizza", 2, 1099 / 100⟩], 2198 / 100⟩ (by simp)).1,
    (checkout_consuming.1 ⟨[⟨"pizza", 2, 1099 / 100⟩], 2198 / 100⟩ (by simp)).2.2.1⟩

theorem removeFirst_decomp (pre post : List CartLine) (l : CartLine) (key : String)
    (hpre : ∀ x ∈ pre, x.item ≠ key) (hl : l.item = key) :
    removeFirst (pre ++ l :: post) key = pre ++ post := by
  induction pre with
  | nil => simp [removeFirst, hl]
  | cons x xs ih =>
    have hx : x.item ≠ key := hpre x (List.mem_cons_self x xs)
    simp only [List.cons_append, removeFirst, if_neg hx, List.cons.injEq, true_and]
    exact ih (fun y hy => hpre y (List.mem_cons_of_mem x hy))

theorem decFirst_decomp (pre post : List CartLine) (l : CartLine) (key : String)
    (q : ℚ) (hpre : ∀ x ∈ pre, x.item ≠ key) (hl : l.item = key) :
    decFirst (pre ++ l :: post) key q
      = if l.qty - q ≤ 0 then pre ++ post
        else pre ++ ⟨l.item, l.qty - q, l.price⟩ :: post := by
  induction pre with
  | nil =>
    simp only [List.nil_append, decFirst, if_pos hl]
  | cons x xs ih =>
    have hx : x.item ≠ key := hpre x (List.mem_cons_self x xs)
    have ih2 := ih (fun y hy => hpre y (List.mem_cons_of_mem x hy))
    simp only [List.cons_append, decFirst, if_neg hx]
    show x :: decFirst (xs ++ l :: post) key q
      = if l.qty - q ≤ 0 then x :: (xs ++ post)
        else x :: (xs ++ (⟨l.item, l.qty - q, l.price⟩ : CartLine) :: post)
    rw [ih2]
    split <;> rfl

/-- C4: RemoveFromCart on an item not present in the cart replies
ItemNotInCart and leaves the cart unchanged; on a present item, any coerced
quantity that is not strictly positive (the remove-all sentinel, which is
also what an absent quantity parameter coerces to) removes the first matching
line outright regardless of its quantity, while a strictly positive quantity
decrements that line, removing it entirely when the result is `≤ 0`. -/
theorem remove_from_cart_spec :
    (∀ (p : Params) (c : Cart),
      getItemParam p ≠ "" →
      (c.items.any (fun l => l.item = getItemParam p)) = false →
      RemoveFromCart p c = (c, Reply.notInCart (getItemParam p)))
    ∧ (∀ (p : Params) (pre post : List CartLine) (l : CartLine) (c : Cart),
        getItemParam p ≠ "" →
        c.items = pre ++ l :: post →
        l.item = getItemParam p →
        (∀ x ∈ pre, x.item ≠ getItemParam p) →
        ((∀ n, removeQty p = some n → n ≤ 0) →
            (RemoveFromCart p c).1.items = pre ++ post)
          ∧ (∀ n, removeQty p = some n → 0 < n →
              (RemoveFromCart p c).1.items
                = if l.qty - n ≤ 0 then pre ++ post
                  else pre ++ ⟨l.item, l.qty - n, l.price⟩ :: post))
    ∧ (∀ p : Params, p.number = none → p.qty = none → removeQty p = some 0) := by
  refine ⟨?_, ?_, ?_⟩
  · intro p c hk hany
    rw [RemoveFromCart, if_neg hk, if_neg (by simp [hany])]
  · intro p pre post l c hk hc hl hpre
    have hany : (c.items.any (fun x => x.item = getItemParam p)) = true := by
      rw [hc]; exact any_key_of_decomp pre post l (getItemParam p) hl
    have hitems : (RemoveFromCart p c).1.items
        = if qtyPos (removeQty p)
          then decFirst c.items (getItemParam p) ((removeQty p).getD 0)
          else removeFirst c.items (getItemParam p) := by
      rw [RemoveFromCart, if_neg hk, if_pos hany]
      rfl
    constructor
    · intro hle
      have hpos : qtyPos (removeQty p) = false := by
        rcases hq : removeQty p with _ | n
        · rfl
        · simpa [qtyPos] using not_lt.mpr (hle n hq)
      rw [hitems, hpos]
      simp only [Bool.false_eq_true, if_false]
      rw [hc]
      exact removeFirst_decomp pre post l (getItemParam p) hpre hl
    · intro n hq hn
      have hpos : qtyPos (removeQty p) = true := by
        simpa [qtyPos, hq] using hn
      rw [hitems, hpos]
      simp only [if_true, hq, Option.getD_some]
      rw [hc]
      exact decFirst_decomp pre post l (getItemParam p) n hpre hl
  · intro p h1 h2
    simp [removeQty, h1, h2, firstPresent, jsToNumber]

theorem remove_from_cart_spec_witness :
    RemoveFromCart (pzP 1) ⟨[], 0⟩
      = ((⟨[], 0⟩ : Cart), Reply.notInCart (getItemParam (pzP 1))) :=
  remove_from_cart_spec.1 (pzP 1) ⟨[], 0⟩ (by decide) rfl

theorem toFixed2_eq_round2away (q : ℚ) (h : 0 ≤ q) : toFixed2 q = round2away q := by
  rw [toFixed2, round2away, if_pos h]

theorem toFixed2_nonneg (q : ℚ) (h : 0 ≤ q) : 0 ≤ toFixed2 q := by
  rw [toFixed2]
  have h1 : (0 : ℤ) ≤ ⌊q * 100 + 1 / 2⌋ := by
    apply Int.floor_nonneg.mpr
    positivity
  have h2 : (0 : ℚ) ≤ ((⌊q * 100 + 1 / 2⌋ : ℤ) : ℚ) := by exact_mod_cast h1
  positivity

/-- C5: on a nonempty cart with nonnegative subtotal (every reachable cart),
Checkout reports the recomputed subtotal, a tax equal to two-decimal
round-half-away-from-zero of subtotal times the fixed tax rate 0.05, and a
total equal to the same rounding of subtotal plus tax; on the one-line cart
{pizza, qty 2, price 10.99} this gives subtotal 21.98, tax 1.10 and
total 23.08. -/
theorem checkout_arithmetic :
    (∀ c : Cart, c.items ≠ [] → 0 ≤ sumLines c.items →
      (Checkout c).2 = Reply.orderPlaced (sumLines c.items)
        (round2away (sumLines c.items * taxRate))
        (round2away (sumLines c.items + round2away (sumLines c.items * taxRate))))
    ∧ taxRate = 5 / 100
    ∧ Checkout ⟨[⟨"pizza", 2, 1099 / 100⟩], 2198 / 100⟩
        = ((⟨[], 0⟩ : Cart), Reply.orderPlaced (2198 / 100) (110 / 100) (2308 / 100)) := by
  refine ⟨?_, rfl, ?_⟩
  · intro c h hs
    have htax : 0 ≤ sumLines c.items * taxRate := by
      apply mul_nonneg hs
      norm_num [taxRate]
    rw [Checkout, if_neg h]
    show Reply.orderPlaced (sumLines c.items) (toFixed2 (sumLines c.items * taxRate))
        (toFixed2 (sumLines c.items + toFixed2 (sumLines c.items * taxRate)))
      = Reply.orderPlaced (sumLines c.items) (round2away (sumLines c.items * taxRate))
        (round2away (sumLines c.items + round2away (sumLines c.items * taxRate)))
    rw [toFixed2_eq_round2away _ htax,
      toFixed2_eq_round2away _
        (add_nonneg hs (by rw [← toFixed2_eq_round2away _ htax]; exact toFixed2_nonneg _ htax))]
  · rw [Checkout]
    rw [if_neg (by simp)]
    have hs : sumLines [(⟨"pizza", 2, 1099 / 100⟩ : CartLine)] = 2198 / 100 := by
      norm_num [sumLines]
    rw [hs]
    show ((⟨[], 0⟩ : Cart), Reply.orderPlaced ((2198 : ℚ) / 100)
        (toFixed2 ((2198 : ℚ) / 100 * taxRate))
        (toFixed2 ((2198 : ℚ) / 100 + toFixed2 ((2198 : ℚ) / 100 * taxRate))))
      = ((⟨[], 0⟩ : Cart), Reply.orderPlaced (2198 / 100) (110 / 100) (2308 / 100))
    have h1 : toFixed2 ((2198 : ℚ) / 100 * taxRate) = 110 / 100 := by
      rw [toFixed2, taxRate]
      norm_num [Int.floor_eq_iff]
    rw [h1]
    have h2 : toFixed2 ((2198 : ℚ) / 100 + 110 / 100) = 2308 / 100 := by
      rw [toFixed2]
      norm_num [Int.floor_eq_iff]
    rw [h2]

theorem checkout_arithmetic_witness :
    (Checkout (⟨[⟨"pizza", 2, 1099 / 100⟩], 2198 / 100⟩ : Cart)).2
      = Reply.orderPlaced (sumLines [(⟨"pizza", 2, 1099 / 100⟩ : CartLine)])
        (round2away (sumLines [(⟨"pizza", 2, 1099 / 100⟩ : CartLine)] * taxRate))
        (round2away (sumLines [(⟨"pizza", 2, 1099 / 100⟩ : CartLine)]
          + round2away (sumLines [(⟨"pizza", 2, 1099 / 100⟩ : CartLine)] * taxRate))) :=
  checkout_arithmetic.1 ⟨[⟨"pizza", 2, 1099 / 100⟩], 2198 / 100⟩ (by simp)
    (by norm_num [sumLines])

/-- C10: a webhook call handled under one session id leaves the cart stored
under every other session id untouched, for each of the five cart
operations. -/
theorem session_isolation (o : Op) (sid other : String) (s : Store)
    (h : sid ≠ other) :
    storeLookup (handleOp o sid s).1 other = storeLookup s other := by
  have hget : storeLookup (getCart s sid).2 other = storeLookup s other := by
    rw [getCart]
    rcases hq : storeLookup s sid with _ | c
    · exact storeLookup_set_other s sid other ⟨[], 0⟩ h
    · rfl
  cases o with
  | add p =>
    simp only [handleOp]
    split
    · rfl
    · split
      · rfl
      · rw [storeLookup_set_other _ sid other _ h, hget]
  | showOp =>
    simp only [handleOp]
    rw [storeLookup_set_other _ sid other _ h, hget]
  | remove p =>
    simp only [handleOp]
    split
    · rfl
    · rw [storeLookup_set_other _ sid other _ h, hget]
  | clear =>
    simp only [handleOp]
    exact storeLookup_set_other s sid other ⟨[], 0⟩ h
  | checkout =>
    simp only [handleOp]
    rw [storeLookup_set_other _ sid other _ h, hget]

theorem session_isolation_witness :
    ("A" : String) ≠ "B"
      ∧ storeLookup (handleOp Op.clear "A" []).1 "B" = storeLookup [] "B" :=
  ⟨by decide, session_isolation Op.clear "A" "B" [] (by decide)⟩

/-- A parameter field the `??` chain skips: absent, or present with value
`null` (JavaScript also skips `undefined`, identified with `vNull` here). -/
def pAbsent (o : Option PVal) : Prop :=
  o = none ∨ o = some PVal.vNull

theorem firstPresent_present (v : PVal) (d : PVal) (h : v ≠ PVal.vNull) :
    firstPresent (some v) d = v := by
  cases v <;> first | rfl | exact absurd rfl h

theorem firstPresent_absent (o : Option PVal) (d : PVal) (h : pAbsent o) :
    firstPresent o d = d := by
  rcases h with h | h <;> rw [h] <;> rfl

/-- C7: the normalizer is a total function of the parameter bag; item-key
extraction takes the first present (non-null) field in the priority order
menu_items, "menu item", item — defaulting to the empty string — and pipes
it through toString, toLowerCase, trim; quantity extraction coerces the first
present field in the order number, qty, and yields the coerced number when it
is finite and strictly positive, otherwise the caller-supplied fallback
(also used when both fields are absent). -/
theorem normalizer_spec :
    (∀ (p : Params) (v : PVal), p.menu_items = some v → v ≠ PVal.vNull →
        getItemParam p = jsTrim (jsToLower (jsToString v)))
    ∧ (∀ (p : Params) (v : PVal), pAbsent p.menu_items →
        p.menuItemSp = some v → v ≠ PVal.vNull →
        getItemParam p = jsTrim (jsToLower (jsToString v)))
    ∧ (∀ (p : Params) (v : PVal), pAbsent p.menu_items → pAbsent p.menuItemSp →
        p.item = some v → v ≠ PVal.vNull →
        getItemParam p = jsTrim (jsToLower (jsToString v)))
    ∧ (∀ p : Params, pAbsent p.menu_items → pAbsent p.menuItemSp → pAbsent p.item →
        getItemParam p = "")
    ∧ (∀ (p : Params) (fb : ℚ) (v : PVal) (n : ℚ), p.number = some v →
        v ≠ PVal.vNull → jsToNumber v = some n → 0 < n → getQtyParam p fb = n)
    ∧ (∀ (p : Params) (fb : ℚ) (v : PVal), p.number = some v → v ≠ PVal.vNull →
        (jsToNumber v = none ∨ ∃ n, jsToNumber v = some n ∧ n ≤ 0) →
        getQtyParam p fb = fb)
    ∧ (∀ (p : Params) (fb : ℚ) (v : PVal) (n : ℚ), pAbsent p.number →
        p.qty = some v → v ≠ PVal.vNull →
        jsToNumber v = some n → 0 < n → getQtyParam p fb = n)
    ∧ (∀ (p : Params) (fb : ℚ) (v : PVal), pAbsent p.number → p.qty = some v →
        v ≠ PVal.vNull →
        (jsToNumber v = none ∨ ∃ n, jsToNumber v = some n ∧ n ≤ 0) →
        getQtyParam p fb = fb)
    ∧ (∀ (p : Params) (fb : ℚ), pAbsent p.number → pAbsent p.qty →
        getQtyParam p fb = fb) := by
  refine ⟨?_, ?_, ?_, ?_, ?_, ?_, ?_, ?_, ?_⟩
  · intro p v hp hv
    rw [getItemParam, hp, firstPresent_present v _ hv]
  · intro p v ha hp hv
    rw [getItemParam, firstPresent_absent _ _ ha, firstPresent_absent _ _ ha, hp,
      firstPresent_present v _ hv]
  · intro p v ha hb hp hv
    rw [getItemParam, firstPresent_absent _ _ ha, firstPresent_absent _ _ ha,
      firstPresent_absent _ _ hb, hp, firstPresent_present v _ hv]
  · intro p ha hb hc
    rw [getItemParam, firstPresent_absent _ _ ha, firstPresent_absent _ _ ha,
      firstPresent_absent _ _ hb, firstPresent_absent _ _ hc]
    rfl
  · intro p fb v n hp hv hn hpos
    simp only [getQtyParam, hp, firstPresent_present v _ hv, hn, if_pos hpos]
  · intro p fb v hp hv hcase
    simp only [getQtyParam, hp, firstPresent_present v _ hv]
    rcases hcase with hn | ⟨n, hn, hle⟩
    · rw [hn]
    · rw [hn]
      exact if_neg (not_lt.mpr hle)
  · intro p fb v n ha hp hv hn hpos
    simp only [getQtyParam, firstPresent_absent _ _ ha, hp,
      firstPresent_present v _ hv, hn, if_pos hpos]
  · intro p fb v ha hp hv hcase
    simp only [getQtyParam, firstPresent_absent _ _ ha, hp,
      firstPresent_present v _ hv]
    rcases hcase with hn | ⟨n, hn, hle⟩
    · rw [hn]
    · rw [hn]
      exact if_neg (not_lt.mpr hle)
  · intro p fb ha hb
    have h1 : firstPresent p.number (firstPresent p.number
        (firstPresent p.qty (PVal.vNum fb))) = PVal.vNum fb := by
      rw [firstPresent_absent _ _ ha, firstPresent_absent _ _ ha,
        firstPresent_absent _ _ hb]
    simp only [getQtyParam, h1, jsToNumber, ite_self]

theorem normalizer_spec_witness :
    getItemParam (pzP 1) = jsTrim (jsToLower (jsToString (PVal.vStr "pizza"))) :=
  normalizer_spec.1 (pzP 1) (PVal.vStr "pizza") rfl (by intro h; exact PVal.noConfusion h)

theorem addHalf_eval :
    AddToCart (pzP (1 / 2)) ⟨[], 0⟩
      = (⟨[⟨"pizza", 1 / 2, 1099 / 100⟩], 1099 / 200⟩,
          Reply.added "Margherita Pizza" (1 / 2) (1099 / 200)) := by
  have hq := pzP_qty (1 / 2) (by norm_num)
  rw [AddToCart]
  norm_num +decide [pzP_item, menu_pizza, hq, addLine, bumpFirst, recalc, sumLines]

/-- C6 counterexample: with the quantity parameter 0.5 — strictly below 1 —
the `part_000` AddToCart does not signal InvalidQuantity: it replies `added`
and mutates the cart, storing a pizza line with quantity 1/2. -/
theorem add_no_invalid_quantity_cex :
    getQtyParam (pzP (1 / 2)) 1 = 1 / 2
      ∧ ((1 : ℚ) / 2 < 1)
      ∧ (AddToCart (pzP (1 / 2)) ⟨[], 0⟩).2
          = Reply.added "Margherita Pizza" (1 / 2) (1099 / 200)
      ∧ (AddToCart (pzP (1 / 2)) ⟨[], 0⟩).1.items
          = [⟨"pizza", 1 / 2, 1099 / 100⟩] := by
  refine ⟨pzP_qty (1 / 2) (by norm_num), by norm_num, ?_, ?_⟩ <;> rw [addHalf_eval]

/-- C6 (amended): the `server.js` AddToCart signals MissingItem on an empty
normalized key, UnknownItem on a non-catalog key, and InvalidQuantity when
the coerced quantity is NaN or below 1 (each leaving the cart unchanged), and
mutates the cart only when the item is in the catalog and the quantity is
`≥ 1`; the `part_000` AddToCart signals only MissingItem and UnknownItem,
never InvalidQuantity — its normalizer substitutes the default 1 for
non-finite or nonpositive quantities but passes fractional quantities below 1
straight through — and it mutates the cart exactly when the item key is in
the catalog. -/
theorem add_quantity_validation :
    (∀ (p : Params) (c : Cart),
      (serverItemParam p = "" → serverAddToCart p c = (c, Reply.missingItemAdd))
      ∧ (serverItemParam p ≠ "" → menu (serverItemParam p) = none →
          serverAddToCart p c = (c, Reply.unknownItem (serverItemParam p)))
      ∧ (∀ e, menu (serverItemParam p) = some e →
          (serverQty p = none ∨ ∃ n, serverQty p = some n ∧ n < 1) →
          serverAddToCart p c = (c, Reply.invalidQuantity))
      ∧ ((serverAddToCart p c).1 ≠ c →
          ∃ e n, menu (serverItemParam p) = some e ∧ serverQty p = some n ∧ 1 ≤ n))
    ∧ (∀ (p : Params) (c : Cart),
        (getItemParam p = "" → AddToCart p c = (c, Reply.missingItemAdd))
        ∧ (getItemParam p ≠ "" → menu (getItemParam p) = none →
            AddToCart p c = (c, Reply.unknownItem (getItemParam p)))
        ∧ (AddToCart p c).2 ≠ Reply.invalidQuantity
        ∧ ((AddToCart p c).1 ≠ c → ∃ e, menu (getItemParam p) = some e)
        ∧ (∀ e, menu (getItemParam p) = some e →
            (AddToCart p c).1.items
              = addLine c.items (getItemParam p) (getQtyParam p 1) e.price
            ∧ 0 < getQtyParam p 1)) := by
  constructor
  · intro p c
    refine ⟨?_, ?_, ?_, ?_⟩
    · intro hk
      rw [serverAddToCart, if_pos hk]
    · intro hk hm
      rw [serverAddToCart, if_neg hk, hm]
    · intro e hm hq
      have hk : serverItemParam p ≠ "" := by
        intro h0
        rw [h0, menu_empty_key] at hm
        exact Option.noConfusion hm
      rcases hq with hq | ⟨n, hq, hn⟩
      · rw [serverAddToCart, if_neg hk, hm, hq]
      · rw [serverAddToCart, if_neg hk, hm, hq]
        exact if_pos hn
    · intro hne
      by_cases hk : serverItemParam p = ""
      · exact absurd (congrArg Prod.fst ((serverAddToCart p c).eta.symm.trans
          (by rw [serverAddToCart, if_pos hk]))) hne
      · rcases hm : menu (serverItemParam p) with _ | e
        · exact absurd (congrArg Prod.fst (by rw [serverAddToCart, if_neg hk, hm] :
            serverAddToCart p c = (c, Reply.unknownItem (serverItemParam p)))) hne
        · rcases hq : serverQty p with _ | n
          · exact absurd (congrArg Prod.fst (by rw [serverAddToCart, if_neg hk, hm, hq] :
              serverAddToCart p c = (c, Reply.invalidQuantity))) hne
          · by_cases hn : n < 1
            · exact absurd (congrArg Prod.fst
                (by rw [serverAddToCart, if_neg hk, hm, hq]; exact if_pos hn :
                  serverAddToCart p c = (c, Reply.invalidQuantity))) hne
            · exact ⟨e, n, rfl, rfl, not_lt.mp hn⟩
  · intro p c
    refine ⟨?_, ?_, ?_, ?_, ?_⟩
    · intro hk
      rw [AddToCart, if_pos hk]
    · intro hk hm
      rw [AddToCart, if_neg hk, hm]
    · rw [AddToCart]
      split
      · simp
      · split
        · simp
        · simp
    · intro hne
      by_cases hk : getItemParam p = ""
      · exact absurd (congrArg Prod.fst (by rw [AddToCart, if_pos hk] :
          AddToCart p c = (c, Reply.missingItemAdd))) hne
      · rcases hm : menu (getItemParam p) with _ | e
        · exact absurd (congrArg Prod.fst (by rw [AddToCart, if_neg hk, hm] :
            AddToCart p c = (c, Reply.unknownItem (getItemParam p)))) hne
        · exact ⟨e, rfl⟩
    · intro e hm
      have hk : getItemParam p ≠ "" := by
        intro h0
        rw [h0, menu_empty_key] at hm
        exact Option.noConfusion hm
      refine ⟨?_, getQtyParam_pos p 1 one_pos⟩
      rw [AddToCart, if_neg hk, hm]
      rfl

theorem add_quantity_validation_witness :
    serverAddToCart (pzP (1 / 2)) ⟨[], 0⟩ = ((⟨[], 0⟩ : Cart), Reply.invalidQuantity) :=
  (add_quantity_validation.1 (pzP (1 / 2)) ⟨[], 0⟩).2.2.1 ⟨"Margherita Pizza", 1099 / 100⟩
    (by rw [pzP_server_item]; exact menu_pizza)
    (Or.inr ⟨1 / 2, rfl, by norm_num⟩)

theorem addPz1_eval :
    AddToCart (pzP 1) ⟨[], 0⟩
      = (⟨[⟨"pizza", 1, 1099 / 100⟩], 1099 / 100⟩,
          Reply.added "Margherita Pizza" 1 (1099 / 100)) := by
  have hq := pzP_qty 1 (by norm_num)
  rw [AddToCart]
  norm_num +decide [pzP_item, menu_pizza, hq, addLine, bumpFirst, recalc, sumLines]

theorem addPz2_eval :
    AddToCart (pzP 2) ⟨[⟨"pizza", 1, 1099 / 100⟩], 1099 / 100⟩
      = (⟨[⟨"pizza", 3, 1099 / 100⟩], 3297 / 100⟩,
          Reply.added "Margherita Pizza" 2 (3297 / 100)) := by
  have hq := pzP_qty 2 (by norm_num)
  rw [AddToCart]
  norm_num +decide [pzP_item, menu_pizza, hq, addLine, bumpFirst, recalc, sumLines]

/-- C8 counterexample: after adding pizza with quantity 1 and then again with
quantity 2, the second reply reports quantity 2 — the delta just added — while
the merged line's total quantity is 3, so the reply does not report the
affected line's new quantity. -/
theorem add_reply_delta_cex :
    (AddToCart (pzP 2) (AddToCart (pzP 1) ⟨[], 0⟩).1).2
        = Reply.added "Margherita Pizza" 2 (3297 / 100)
      ∧ ((AddToCart (pzP 2) (AddToCart (pzP 1) ⟨[], 0⟩).1).1.items.map
          (fun l => l.qty)) = [3]
      ∧ Reply.added "Margherita Pizza" 2 (3297 / 100)
          ≠ Reply.added "Margherita Pizza" 3 (3297 / 100) := by
  rw [addPz1_eval]
  refine ⟨?_, ?_, ?_⟩
  · rw [addPz2_eval]
  · rw [addPz2_eval]; rfl
  · intro h
    have h2 := (Reply.added.injEq _ _ _ _ _ _).mp h
    norm_num at h2

/-- C8 (amended): a successful AddToCart reply reports the quantity added by
this operation — the normalized input delta, not the merged line's total —
together with the recomputed subtotal of the resulting cart. -/
theorem add_reply_reports_delta :
    ∀ (p : Params) (c : Cart) (e : MenuEntry), menu (getItemParam p) = some e →
      (AddToCart p c).2
        = Reply.added e.name (getQtyParam p 1) (sumLines (AddToCart p c).1.items) := by
  intro p c e hm
  have hk : getItemParam p ≠ "" := by
    intro h0
    rw [h0, menu_empty_key] at hm
    exact Option.noConfusion hm
  rw [AddToCart, if_neg hk, hm]
  rfl

theorem add_reply_reports_delta_witness :
    (AddToCart (pzP 1) ⟨[], 0⟩).2
      = Reply.added "Margherita Pizza" (getQtyParam (pzP 1) 1)
          (sumLines (AddToCart (pzP 1) ⟨[], 0⟩).1.items) :=
  add_reply_reports_delta (pzP 1) ⟨[], 0⟩ ⟨"Margherita Pizza", 1099 / 100⟩
    (by rw [pzP_item]; exact menu_pizza)

/-- C1: for every sequence of cart operations applied to a (freshly created,
hence empty) cart, after each operation the stored subtotal equals the sum
over the current lines of quantity times unit-price snapshot, and a cart with
zero lines has subtotal 0. -/
theorem subtotal_invariant (ops : List Op) (c : Cart)
    (hc : c ∈ runTrace ops ⟨[], 0⟩) :
    c.subtotal = (c.items.map (fun l => l.price * l.qty)).sum
      ∧ (c.items = [] → c.subtotal = 0) := by
  have h := runTrace_inv ops ⟨[], 0⟩ cartInv_empty c hc
  rw [cartInv, sumLines_eq] at h
  refine ⟨h, fun he => ?_⟩
  rw [h, he]
  simp

theorem subtotal_invariant_witness :
    ((⟨[], 0⟩ : Cart) ∈ runTrace [Op.clear] ⟨[], 0⟩)
      ∧ ((⟨[], 0⟩ : Cart).subtotal
          = (((⟨[], 0⟩ : Cart).items).map (fun l => l.price * l.qty)).sum
          ∧ ((⟨[], 0⟩ : Cart).items = [] → (⟨[], 0⟩ : Cart).subtotal = 0)) := by
  have hm : (⟨[], 0⟩ : Cart) ∈ runTrace [Op.clear] ⟨[], 0⟩ := by
    simp [runTrace, applyOp, ClearCart]
  exact ⟨hm, subtotal_invariant [Op.clear] ⟨[], 0⟩ hm⟩

end Webhook
